import Mathlib

/-!
Verification of the SLCOSharePointAutomation repository.

The repository contains two Python scripts:
  * `point_history_updater.py`  (pipeline A, "history append"), and
  * `sharepoint_date_updater.py` (pipeline B, "date reconciliation").

Strings are modelled as `List Char` (`Str`).  The pure string-processing
core of each script is translated function-by-function below; network
effects are modelled by passing the outcome of each remote call as an
explicit argument and recording the mutation requests a function issues
as a trace of `RemoteOp` / `FileWrite` values.
-/

set_option autoImplicit false

namespace SLCO

/-- Strings of the Python scripts are modelled as lists of characters. -/
abbrev Str := List Char

/-- Membership of the Python ASCII whitespace set, as matched by `\s`
and stripped by `str.rstrip()` (ASCII fragment). -/
def isPySpace (c : Char) : Bool :=
  c = ' ' || c = '\t' || c = '\n' || c = '\r' || c = '\x0b' || c = '\x0c'

/-- Model of Python `str.rstrip()` (ASCII whitespace fragment). -/
def pyRstrip (s : Str) : Str :=
  (s.reverse.dropWhile isPySpace).reverse

/-- Model of Python `str.lower()` on ASCII text. -/
def lowerStr (s : Str) : Str := s.map Char.toLower

/-- Boolean substring test, modelling Python's `in` operator on strings. -/
def containsSub (pat : Str) : Str → Bool
  | [] => pat.isPrefixOf []
  | c :: t => pat.isPrefixOf (c :: t) || containsSub pat t

/-- Number of starting positions at which `pat` occurs in `s`
(occurrences are counted at every starting index). -/
def countOcc (pat : Str) : Str → Nat
  | [] => if pat.isPrefixOf [] then 1 else 0
  | c :: t => (if pat.isPrefixOf (c :: t) then 1 else 0) + countOcc pat t

theorem isPrefixOf_self_append (p b : Str) : p.isPrefixOf (p ++ b) = true := by
  induction p with
  | nil => simp
  | cons a as ih => simp [List.isPrefixOf, ih]

theorem isPrefixOf_refl (p : Str) : p.isPrefixOf p = true := by
  have h := isPrefixOf_self_append p []
  rwa [List.append_nil] at h

theorem isPrefixOf_append_right {p l : Str} (b : Str) (h : p.isPrefixOf l = true) :
    p.isPrefixOf (l ++ b) = true := by
  induction p generalizing l with
  | nil => simp
  | cons a as ih =>
    cases l with
    | nil => simp [List.isPrefixOf] at h
    | cons x xs =>
      simp only [List.isPrefixOf, Bool.and_eq_true, beq_iff_eq] at h ⊢
      exact ⟨h.1, ih h.2⟩

theorem head_eq_of_isPrefixOf {c d : Char} {p t : Str}
    (h : (c :: p).isPrefixOf (d :: t) = true) : c = d := by
  simp only [List.isPrefixOf, Bool.and_eq_true, beq_iff_eq] at h
  exact h.1

theorem isPrefixOf_of_append_left {q r l : Str} (h : (q ++ r).isPrefixOf l = true) :
    q.isPrefixOf l = true := by
  induction q generalizing l with
  | nil => simp
  | cons a as ih =>
    cases l with
    | nil => simp [List.isPrefixOf] at h
    | cons x xs =>
      simp only [List.cons_append, List.isPrefixOf, Bool.and_eq_true, beq_iff_eq] at h ⊢
      exact ⟨h.1, ih h.2⟩

theorem containsSub_of_isPrefixOf {p l : Str} (h : p.isPrefixOf l = true) :
    containsSub p l = true := by
  cases l with
  | nil => simpa [containsSub] using h
  | cons c t => simp [containsSub, h]

theorem containsSub_cons {p : Str} (c : Char) {t : Str} (h : containsSub p t = true) :
    containsSub p (c :: t) = true := by
  simp [containsSub, h]

theorem containsSub_append_right {p t : Str} (s : Str) (h : containsSub p t = true) :
    containsSub p (s ++ t) = true := by
  induction s with
  | nil => simpa using h
  | cons c s' ih => exact containsSub_cons c ih

theorem containsSub_append_left {p s : Str} (t : Str) (h : containsSub p s = true) :
    containsSub p (s ++ t) = true := by
  induction s with
  | nil =>
    simp only [containsSub] at h
    cases p with
    | nil => exact containsSub_of_isPrefixOf (by simp)
    | cons a as => simp [List.isPrefixOf] at h
  | cons c s' ih =>
    simp only [containsSub, Bool.or_eq_true] at h
    rcases h with h | h
    · exact containsSub_of_isPrefixOf (by simpa using isPrefixOf_append_right t h)
    · exact containsSub_cons c (ih h)

/-- The pattern occurs wherever it is spliced in between two strings. -/
theorem containsSub_surround (p a b : Str) : containsSub p (a ++ (p ++ b)) = true :=
  containsSub_append_right a
    (containsSub_of_isPrefixOf (isPrefixOf_self_append p b))

theorem containsSub_eq_false_of_head_not_mem {c : Char} {p s : Str} (h : c ∉ s) :
    containsSub (c :: p) s = false := by
  induction s with
  | nil => simp [containsSub, List.isPrefixOf]
  | cons d t ih =>
    have hcd : ¬ c = d := fun hx => h (hx ▸ List.mem_cons_self d t)
    have ht : c ∉ t := fun hx => h (List.mem_cons_of_mem d hx)
    simp only [containsSub, Bool.or_eq_true, ih ht, or_false]
    cases hpre : (c :: p).isPrefixOf (d :: t) with
    | false => rfl
    | true => exact absurd (head_eq_of_isPrefixOf hpre) hcd

theorem countOcc_eq_zero_of_head_not_mem {c : Char} {p s : Str} (h : c ∉ s) :
    countOcc (c :: p) s = 0 := by
  induction s with
  | nil => simp [countOcc, List.isPrefixOf]
  | cons d t ih =>
    have hcd : ¬ c = d := fun hx => h (hx ▸ List.mem_cons_self d t)
    have ht : c ∉ t := fun hx => h (List.mem_cons_of_mem d hx)
    simp only [countOcc, ih ht, Nat.add_zero]
    cases hpre : (c :: p).isPrefixOf (d :: t) with
    | false => rfl
    | true => exact absurd (head_eq_of_isPrefixOf hpre) hcd

/-- Occurrences of a pattern starting with `c` cannot begin inside a block
that does not contain `c`; the count over the concatenation is the count
over the remainder. -/
theorem countOcc_append_of_head_not_mem {c : Char} {p a : Str} (b : Str) (h : c ∉ a) :
    countOcc (c :: p) (a ++ b) = countOcc (c :: p) b := by
  induction a with
  | nil => rfl
  | cons d t ih =>
    have hcd : ¬ c = d := fun hx => h (hx ▸ List.mem_cons_self d t)
    have ht : c ∉ t := fun hx => h (List.mem_cons_of_mem d hx)
    simp only [List.cons_append, countOcc]
    cases hpre : (c :: p).isPrefixOf (d :: (t ++ b)) with
    | false => simpa using ih ht
    | true => exact absurd (head_eq_of_isPrefixOf hpre) hcd

/-- Patterns whose first character reappears nowhere else in the pattern
nor in the continuation occur exactly once in `pat ++ b`. -/
theorem countOcc_self_append {c : Char} {p b : Str} (hp : c ∉ p) (hb : c ∉ b) :
    countOcc (c :: p) ((c :: p) ++ b) = 1 := by
  have hpb : c ∉ p ++ b := by
    intro hx
    rcases List.mem_append.mp hx with hx | hx
    · exact hp hx
    · exact hb hx
  have hhead : (c :: p).isPrefixOf (c :: p ++ b) = true :=
    isPrefixOf_self_append (c :: p) b
  simp [countOcc, hhead, countOcc_eq_zero_of_head_not_mem hpb]

/-- Predicate for characters other than the line separator. -/
def notNL (c : Char) : Bool := !(c == '\n')

/-- Model of Python `content.split('\n')`. -/
def splitNL : Str → List Str
  | [] => [[]]
  | c :: t =>
    if c = '\n' then [] :: splitNL t
    else
      match splitNL t with
      | [] => [[c]]
      | l :: ls => (c :: l) :: ls

/-- Model of Python `'\n'.join(lines)`. -/
def joinNL : List Str → Str
  | [] => []
  | [l] => l
  | l :: ls => l ++ '\n' :: joinNL ls

theorem splitNL_ne_nil (l : Str) : splitNL l ≠ [] := by
  induction l with
  | nil => simp [splitNL]
  | cons c t ih =>
    by_cases hc : c = '\n'
    · simp [splitNL, hc]
    · simp only [splitNL, if_neg hc]
      cases h : splitNL t with
      | nil => simp
      | cons l ls => simp

/-- The first line produced by `splitNL` is the longest newline-free
leading segment of the input. -/
theorem splitNL_head (l : Str) :
    ∃ rest, splitNL l = l.takeWhile notNL :: rest := by
  induction l with
  | nil => exact ⟨[], rfl⟩
  | cons c t ih =>
    by_cases hc : c = '\n'
    · refine ⟨splitNL t, ?_⟩
      simp [splitNL, hc, List.takeWhile_cons, notNL]
    · obtain ⟨rest, hrest⟩ := ih
      refine ⟨rest, ?_⟩
      have hnot : notNL c = true := by simp [notNL, hc]
      simp [splitNL, hc, hrest, List.takeWhile_cons, hnot]

theorem isPrefixOf_takeWhile {p l : Str} (hp : ∀ x ∈ p, notNL x = true)
    (h : p.isPrefixOf l = true) : p.isPrefixOf (l.takeWhile notNL) = true := by
  induction p generalizing l with
  | nil => simp
  | cons a as ih =>
    cases l with
    | nil => simp [List.isPrefixOf] at h
    | cons b bs =>
      simp only [List.isPrefixOf, Bool.and_eq_true, beq_iff_eq] at h
      obtain ⟨rfl, h2⟩ := h
      have ha : notNL a = true := hp a (List.mem_cons_self a as)
      have has : ∀ x ∈ as, notNL x = true := fun x hx => hp x (List.mem_cons_of_mem a hx)
      simp [List.takeWhile_cons, ha, List.isPrefixOf, ih has h2]

/-- Any newline-free substring of the text occurs inside one of its lines. -/
theorem exists_line_of_containsSub {p l : Str} (hp : ∀ x ∈ p, notNL x = true)
    (h : containsSub p l = true) :
    ∃ line, line ∈ splitNL l ∧ containsSub p line = true := by
  induction l with
  | nil => exact ⟨[], by simp [splitNL], h⟩
  | cons c t ih =>
    simp only [containsSub, Bool.or_eq_true] at h
    rcases h with h | h
    · obtain ⟨rest, hrest⟩ := splitNL_head (c :: t)
      refine ⟨(c :: t).takeWhile notNL, ?_, ?_⟩
      · rw [hrest]; exact List.mem_cons_self _ _
      · exact containsSub_of_isPrefixOf (isPrefixOf_takeWhile hp h)
    · obtain ⟨line, hmem, hcont⟩ := ih h
      by_cases hc : c = '\n'
      · exact ⟨line, by simp [splitNL, hc, hmem], hcont⟩
      · rcases hsp : splitNL t with _ | ⟨l₀, ls⟩
        · exact absurd hsp (splitNL_ne_nil t)
        · rw [hsp] at hmem
          rcases List.mem_cons.mp hmem with rfl | hmem'
          · refine ⟨c :: line, ?_, containsSub_cons c hcont⟩
            simp [splitNL, hc, hsp]
          · refine ⟨line, ?_, hcont⟩
            simp [splitNL, hc, hsp, hmem']

/-!
Pipeline B: `sharepoint_date_updater.py`.

The regex `(\d{2}/\d{2}/\d{4})\s+CMS` of `update_text_file` is modelled
directly: `dateAt` matches `\d{2}/\d{2}/\d{4}` at the head of a string,
`afterSpacesCMS` matches `\s*CMS` (the caller guarantees at least one
leading whitespace character), and `subDateCMS` performs the left-to-right
non-overlapping replacement of Python's `re.sub` (ASCII model of `\d` and
`\s`).
-/

/-- Match of `\d{2}/\d{2}/\d{4}` at the head of the string, returning the
remainder after the ten matched characters. -/
def dateAt : Str → Option Str
  | d1 :: d2 :: s1 :: d3 :: d4 :: s2 :: d5 :: d6 :: d7 :: d8 :: rest =>
    if d1.isDigit && d2.isDigit && s1 == '/' && d3.isDigit && d4.isDigit && s2 == '/'
        && d5.isDigit && d6.isDigit && d7.isDigit && d8.isDigit
    then some rest else none
  | _ => none

/-- Match of zero or more whitespace characters followed by the literal
`CMS`, returning the remainder. -/
def afterSpacesCMS : Str → Option Str
  | [] => none
  | c :: t =>
    if c = 'C' then (if t.take 2 = ['M', 'S'] then some (t.drop 2) else none)
    else if isPySpace c then afterSpacesCMS t else none

/-- Match of the full pattern `\d{2}/\d{2}/\d{4}\s+CMS` at the head of the
string, returning the remainder after the match. -/
def matchDateCMS (l : Str) : Option Str :=
  match dateAt l with
  | none => none
  | some rest =>
    match rest with
    | [] => none
    | c :: t => if isPySpace c then afterSpacesCMS (c :: t) else none

theorem dateAt_length {l r : Str} (h : dateAt l = some r) : r.length + 10 = l.length := by
  unfold dateAt at h
  split at h
  · split at h
    · injection h with h
      subst h
      simp
    · exact absurd h (by simp)
  · exact absurd h (by simp)

theorem afterSpacesCMS_length {l r : Str} (h : afterSpacesCMS l = some r) :
    r.length < l.length := by
  induction l with
  | nil => simp [afterSpacesCMS] at h
  | cons c t ih =>
    simp only [afterSpacesCMS] at h
    split at h
    · split at h
      · injection h with h
        subst h
        have := List.length_drop 2 t
        simp only [List.length_cons, this]
        omega
      · exact absurd h (by simp)
    · split at h
      · exact Nat.lt_trans (ih h) (by simp)
      · exact absurd h (by simp)

theorem matchDateCMS_length {l r : Str} (h : matchDateCMS l = some r) :
    r.length < l.length := by
  unfold matchDateCMS at h
  split at h
  · exact absurd h (by simp)
  · rename_i rest hd
    have h10 := dateAt_length hd
    split at h
    · exact absurd h (by simp)
    · split at h
      · have := afterSpacesCMS_length h
        omega
      · exact absurd h (by simp)

/-- Model of `re.sub(r'(\d{2}/\d{2}/\d{4})\s+CMS', repl, line)`: scan left
to right, replace each non-overlapping match by `repl`, and resume after
the match. -/
def subDateCMS (repl : Str) : Str → Str
  | [] => []
  | c :: rest =>
    match h : matchDateCMS (c :: rest) with
    | some after => repl ++ subDateCMS repl after
    | none => c :: subDateCMS repl rest
termination_by l => l.length
decreasing_by
  · exact matchDateCMS_length h
  · simp

/-- Truth of `'CMS' in line`. -/
def hasCMS (l : Str) : Bool := containsSub (('C' : Char) :: 'M' :: 'S' :: []) l

/-- Truth of `re.search(r'\d{2}/\d{2}/\d{4}', line)`. -/
def hasDate : Str → Bool
  | [] => false
  | c :: t => (dateAt (c :: t)).isSome || hasDate t

/-- The dual condition of the line patcher: the line contains `CMS` and
matches the date pattern. -/
def dualCond (l : Str) : Bool := hasCMS l && hasDate l

/-- Whether the full replacement pattern `\d{2}/\d{2}/\d{4}\s+CMS` matches
anywhere in the line (i.e. whether `re.sub` replaces anything). -/
def hasDateCMS : Str → Bool
  | [] => false
  | c :: t => (matchDateCMS (c :: t)).isSome || hasDateCMS t

/-- The per-line loop of `update_text_file`: patch every line satisfying
the dual condition, pass other lines through, and count patched lines. -/
def patchLines (repl : Str) : List Str → List Str × Nat
  | [] => ([], 0)
  | line :: rest =>
    let r := patchLines repl rest
    if dualCond line then (subDateCMS repl line :: r.1, r.2 + 1)
    else (line :: r.1, r.2)

theorem subDateCMS_of_not_hasDateCMS (repl : Str) :
    ∀ l : Str, hasDateCMS l = false → subDateCMS repl l = l := by
  intro l
  induction l using subDateCMS.induct repl with
  | case1 => intro _; simp [subDateCMS]
  | case2 c rest after hm ih =>
    intro h
    simp [hasDateCMS, hm] at h
  | case3 c rest hm ih =>
    intro h
    simp only [hasDateCMS, hm, Option.isSome_none, Bool.false_or] at h
    simp only [subDateCMS]
    split
    · rename_i after heq
      simp [hm] at heq
    · rw [ih h]

theorem subDateCMS_containsSub_of_hasDateCMS (repl : Str) :
    ∀ l : Str, hasDateCMS l = true → containsSub repl (subDateCMS repl l) = true := by
  intro l
  induction l using subDateCMS.induct repl with
  | case1 => intro h; simp [hasDateCMS] at h
  | case2 c rest after hm ih =>
    intro _
    simp only [subDateCMS]
    split
    · exact containsSub_append_left _ (containsSub_of_isPrefixOf (isPrefixOf_refl repl))
    · rename_i heq
      simp [hm] at heq
  | case3 c rest hm ih =>
    intro h
    simp only [hasDateCMS, hm, Option.isSome_none, Bool.false_or] at h
    simp only [subDateCMS]
    split
    · rename_i after heq
      simp [hm] at heq
    · exact containsSub_cons c (ih h)

theorem patchLines_length (repl : Str) (ls : List Str) :
    (patchLines repl ls).1.length = ls.length := by
  induction ls with
  | nil => rfl
  | cons line rest ih =>
    simp only [patchLines]
    by_cases h : dualCond line
    · simp [h, ih]
    · simp [h, ih]

theorem patchLines_count (repl : Str) (ls : List Str) :
    (patchLines repl ls).2 = ls.countP dualCond := by
  induction ls with
  | nil => rfl
  | cons line rest ih =>
    simp only [patchLines, List.countP_cons]
    by_cases h : dualCond line
    · simp [h, ih]
    · simp [h, ih]

theorem patchLines_getD (repl : Str) (ls : List Str) (i : Nat) :
    (patchLines repl ls).1.getD i [] =
      (if dualCond (ls.getD i []) then subDateCMS repl (ls.getD i []) else ls.getD i []) := by
  induction ls generalizing i with
  | nil => simp [patchLines, dualCond, hasCMS, containsSub, List.isPrefixOf]
  | cons line rest ih =>
    cases i with
    | zero =>
      simp only [patchLines]
      by_cases h : dualCond line
      · simp [h]
      · simp [h]
    | succ n =>
      simp only [patchLines]
      by_cases h : dualCond line
      · simpa [h] using ih n
      · simpa [h] using ih n

/-- Remote mutation requests issued by `update_text_file`: a `MoveTo`
rename and a `PUT` of file content. -/
inductive RemoteOp where
  | rename (oldName newName : Str)
  | put (fileName : Str) (content : Str)
deriving DecidableEq, Repr

/-- The canonical file name `Point {point_number}.txt`. -/
def desiredName (point_number : Str) : Str :=
  ("Point ").data ++ point_number ++ (".txt").data

/-- The replacement text `f'{new_date_str}\t\tCMS'` of the `re.sub` call. -/
def replText (new_date_str : Str) : Str :=
  new_date_str ++ ('\t' :: '\t' :: 'C' :: 'M' :: 'S' :: [])

/-- Model of `SharePointPointUpdater.update_text_file`.  `backupOk` is the
result of `download_original_file`, `fetched` the result of the second
`get_text_file_content` call, `renameOk` the result of
`rename_sharepoint_file` (the code only logs it), and `putOk` whether the
final `PUT` succeeds.  `new_date_str` is the already formatted
`MM/DD/YYYY` date (the `strptime`/`strftime` conversion is assumed to
have succeeded).  Returns the Python return value paired with the list of
remote mutation requests issued, in order. -/
def update_text_file (point_number file_name new_date_str : Str)
    (backupOk : Bool) (fetched : Option Str) (renameOk putOk : Bool) :
    Bool × List RemoteOp :=
  if backupOk then
    match fetched with
    | none => (false, [])
    | some content =>
      let desired_file_name := desiredName point_number
      let rename_needed := decide (lowerStr file_name ≠ lowerStr desired_file_name)
      let patched := patchLines (replText new_date_str) (splitNL content)
      if patched.2 = 0 then (false, [])
      else
        let updated_content := joinNL patched.1
        if rename_needed then
          (putOk, [RemoteOp.rename file_name desired_file_name,
                   RemoteOp.put desired_file_name updated_content])
        else
          (putOk, [RemoteOp.put file_name updated_content])
  else (false, [])

/-- A list item returned by the date-range metadata query of
`get_points_by_date_range`. -/
structure PointRec where
  id : Nat
  point_number : Str
  date_added : Str
deriving DecidableEq, Repr

/-- The truncation step `if max_points: points = points[:max_points]` of
`process_multiple_points`; `none` models Python `None`, and `some 0` is
falsy in Python just like `None`. -/
def truncatePoints (points : List PointRec) (max_points : Option Nat) : List PointRec :=
  match max_points with
  | some m => if m ≠ 0 then points.take m else points
  | none => points

/-- Model of `process_multiple_points` after the date-range query:
truncate the point list, process each point in order, and partition the
results into the `successful` and `failed` lists.  `processOk` is the
outcome of `process_single_point` for each point. -/
def process_multiple_points (points : List PointRec) (max_points : Option Nat)
    (processOk : PointRec → Bool) : List PointRec × List PointRec :=
  let pts := truncatePoints points max_points
  (pts.filter processOk, pts.filter (fun p => !(processOk p)))

/-!
Pipeline A: `point_history_updater.py`.
-/

/-- The `VRSObservation` dataclass (`sect` models the `section` field,
whose Python name is a Lean keyword). -/
structure VRSObservation where
  document_num : Str
  work_order : Str
  control_used : Str
  point_number : Str
  township_range : Str
  sect : Str
  date_observed : Str
  monument_type : Option Str := none
deriving DecidableEq, Repr

/-- The `permit_text` local of `_create_point_history_content`:
`f"{self.monument_permit} " if self.monument_permit else ""`. -/
def permitText (monument_permit : Option Str) : Str :=
  match monument_permit with
  | some p => if p = [] then [] else p ++ (" ").data
  | none => []

/-- The `monument_type_text` local of `_create_point_history_content`:
`f" ({obs.monument_type})" if obs.monument_type else ""`. -/
def monumentTypeText (monument_type : Option Str) : Str :=
  match monument_type with
  | some m => if m = [] then [] else (" (").data ++ m ++ (")").data
  | none => []

/-- The `location_text` local of `_create_point_history_content`. -/
def locationText (obs : VRSObservation) : Str :=
  ("Section ").data ++ obs.sect ++ (", ").data ++ obs.township_range

/-- The `new_entry` local of `_create_point_history_content`.
`current_date` stands for `datetime.now().strftime('%m/%d/%Y')`. -/
def newEntryText (monument_permit : Option Str) (current_date : Str)
    (obs : VRSObservation) (observer initials : Str) : Str :=
  ("\n\n").data ++ current_date ++ ("\t").data ++ initials
    ++ ("\tThis monument").data ++ monumentTypeText obs.monument_type
    ++ (" was observed with VRS (").data ++ obs.document_num
    ++ (") using ").data ++ obs.control_used ++ (" and Geoid18").data
    ++ ("\n\t\t\tas part of WO ").data ++ obs.work_order
    ++ (". The purpose of this work order was to facilitate ").data
    ++ permitText monument_permit
    ++ ("\n\t\t\t").data ++ locationText obs ++ (". Monument observed by ").data
    ++ observer ++ (" on ").data ++ obs.date_observed ++ (".\n\n").data

/-- The fixed part of the `template` f-string of
`_create_point_history_content`, up to but excluding `new_entry`
(the separator line has 89 dashes in the source). -/
def templateHeader (point_number : Str) : Str :=
  ("\n    POINT HISTORY FILE: for point ").data ++ point_number
    ++ ("\n\n(mm/dd/yyyy) \t(initials)\t\tACTION/REMARKS\n").data
    ++ List.replicate 89 '-' ++ ("\n").data

/-- Model of `_create_point_history_content`. -/
def createPointHistoryContent (monument_permit : Option Str) (current_date : Str)
    (obs : VRSObservation) (observer initials : Str)
    (existing_content : Option Str) : Str :=
  let new_entry := newEntryText monument_permit current_date obs observer initials
  match existing_content with
  | some e =>
    if e ≠ [] then pyRstrip e ++ new_entry
    else templateHeader obs.point_number ++ new_entry
  | none => templateHeader obs.point_number ++ new_entry

/-- A file entry of a SharePoint folder listing. -/
structure SPFile where
  name : Str
  content : Str
deriving DecidableEq, Repr

/-- The text-file selection `next((f for f in files if
f['Name'].lower().endswith('.txt')), None)`. -/
def findTxtFile (files : List SPFile) : Option SPFile :=
  files.find? (fun f => (".txt").data.isSuffixOf (lowerStr f.name))

/-- Model of `get_existing_content`.  `listing` is the outcome of the
folder listing request (`Except.error` for a transport/service error),
`contentFetchOk` whether the subsequent content `GET` succeeds.  Every
failure path returns `none`. -/
def get_existing_content (listing : Except Unit (List SPFile))
    (contentFetchOk : Bool) : Option Str :=
  match listing with
  | .error _ => none
  | .ok files =>
    match findTxtFile files with
    | none => none
    | some f => if contentFetchOk then some f.content else none

/-- The remote write issued by `update_point_history`: a POST creating a
new file or a PUT overwriting an existing one. -/
inductive FileWrite where
  | create (fileName : Str) (content : Str)
  | update (fileName : Str) (content : Str)
deriving DecidableEq, Repr

/-- Model of `update_point_history` after the monument-type lookup:
fetch existing content, compose the new content, and issue either an
in-place update (existing content truthy) or a create with the canonical
name `Point {point_number}.txt`.  Returns the write request issued, or
`none` if an exception aborts before any write. -/
def update_point_history (monument_permit : Option Str) (current_date : Str)
    (obs : VRSObservation) (observer initials : Str) (monumentType : Option Str)
    (listing : Except Unit (List SPFile)) (contentFetchOk : Bool) :
    Option FileWrite :=
  let obs' := { obs with monument_type := monumentType }
  let existing := get_existing_content listing contentFetchOk
  let content := createPointHistoryContent monument_permit current_date obs' observer initials existing
  match existing with
  | some e =>
    if e ≠ [] then
      match listing with
      | .error _ => none
      | .ok files =>
        match findTxtFile files with
        | none => none
        | some f => some (.update f.name content)
    else
      some (.create (("Point ").data ++ obs.point_number ++ (".txt").data) content)
  | none =>
    some (.create (("Point ").data ++ obs.point_number ++ (".txt").data) content)

/-!
URL construction and the date filter.
-/

/-- A single decimal digit character. -/
def digitChar (n : Nat) : Char :=
  match n % 10 with
  | 0 => '0' | 1 => '1' | 2 => '2' | 3 => '3' | 4 => '4'
  | 5 => '5' | 6 => '6' | 7 => '7' | 8 => '8' | _ => '9'

/-- Two-digit zero-padded decimal rendering (strftime `%m`, `%d`, ...). -/
def twoDigit (n : Nat) : Str := [digitChar (n / 10), digitChar n]

/-- Four-digit zero-padded decimal rendering (strftime `%Y`). -/
def fourDigit (n : Nat) : Str :=
  [digitChar (n / 1000), digitChar (n / 100), digitChar (n / 10), digitChar n]

/-- Model of `strftime('%Y-%m-%dT%H:%M:%SZ')` on a datetime given by its
six components. -/
def isoZ (y mo d h mi s : Nat) : Str :=
  fourDigit y ++ ('-' : Char) :: (twoDigit mo ++ ('-' : Char) :: (twoDigit d
    ++ ('T' : Char) :: (twoDigit h ++ (':' : Char) :: (twoDigit mi
    ++ (':' : Char) :: (twoDigit s ++ [('Z' : Char)])))))

/-- The SharePoint internal name of the "Date Added" column. -/
def dateAddedField : Str := ("Date_x0020_Added").data

/-- The `$filter` expression built by `get_points_by_date_range`: a `ge`
lower bound, and additionally a `le` upper bound only when an end date is
given. -/
def dateFilter (startIso : Str) (endIso : Option Str) : Str :=
  match endIso with
  | some e =>
    dateAddedField ++ (" ge datetime\x27").data ++ startIso ++ ("\x27 and ").data
      ++ dateAddedField ++ (" le datetime\x27").data ++ e ++ ("\x27").data
  | none => dateAddedField ++ (" ge datetime\x27").data ++ startIso ++ ("\x27").data

/-- Hexadecimal digit characters (uppercase, as produced by Python's
`urllib.parse.quote`). -/
def hexDigit (n : Nat) : Char :=
  match n % 16 with
  | 0 => '0' | 1 => '1' | 2 => '2' | 3 => '3' | 4 => '4'
  | 5 => '5' | 6 => '6' | 7 => '7' | 8 => '8' | 9 => '9'
  | 10 => 'A' | 11 => 'B' | 12 => 'C' | 13 => 'D' | 14 => 'E' | _ => 'F'

/-- Characters passed through unescaped by `urllib.parse.quote` with the
default `safe='/'`: ASCII alphanumerics, `_.-~` and `/`. -/
def isQuoteSafe (c : Char) : Bool :=
  c.isAlphanum || c = '_' || c = '.' || c = '-' || c = '~' || c = '/'

/-- Percent-encoding of a single character (ASCII model). -/
def quoteChar (c : Char) : Str :=
  if isQuoteSafe c then [c]
  else '%' :: hexDigit (c.toNat / 16) :: [hexDigit c.toNat]

/-- Model of `urllib.parse.quote(s)` with the default `safe='/'`, for
ASCII text (multi-byte UTF-8 encoding of non-ASCII characters is not
modelled). -/
def pyQuote : Str → Str
  | [] => []
  | c :: t => quoteChar c ++ pyQuote t

/-- The folder-listing URL built by `get_text_file_name` in
`sharepoint_date_updater.py` (the path segments are embedded without
percent-encoding). -/
def sdu_folder_files_url (base site library point_number : Str) : Str :=
  base ++ ("/sites/").data ++ site
    ++ ("/_api/web/GetFolderByServerRelativeUrl(\x27/sites/").data ++ site
    ++ ("/").data ++ library ++ ("/").data ++ point_number ++ ("\x27)/Files").data

/-- The file-content URL built by `get_text_file_content` in
`sharepoint_date_updater.py` (the path segments are embedded without
percent-encoding). -/
def sdu_file_content_url (base site library point_number file_name : Str) : Str :=
  base ++ ("/sites/").data ++ site
    ++ ("/_api/web/GetFileByServerRelativeUrl(\x27/sites/").data ++ site
    ++ ("/").data ++ library ++ ("/").data ++ point_number ++ ("/").data
    ++ file_name ++ ("\x27)/$value").data

/-- Modelled from the spec: the folder-listing URL of
`sharepoint_date_updater.py` as it would be with its path percent-encoded
before being embedded, the behaviour the specification ascribes to both
pipelines. -/
def sdu_folder_files_url_spec (base site library point_number : Str) : Str :=
  base ++ ("/sites/").data ++ site
    ++ ("/_api/web/GetFolderByServerRelativeUrl(\x27").data
    ++ pyQuote (("/sites/").data ++ site ++ ("/").data ++ library ++ ("/").data
        ++ point_number)
    ++ ("\x27)/Files").data

/-- The folder-listing URL built by `get_existing_content` in
`point_history_updater.py` (`folder_path` is percent-encoded via
`quote`). -/
def phu_folder_files_url (base site library point_number : Str) : Str :=
  base ++ ("/sites/").data ++ site
    ++ ("/_api/web/GetFolderByServerRelativeUrl(\x27").data
    ++ pyQuote (("/sites/").data ++ site ++ ("/").data ++ library ++ ("/").data
        ++ point_number)
    ++ ("\x27)/Files").data

/-- The file-content URL built by `get_existing_content` in
`point_history_updater.py` (`file_path` is percent-encoded via `quote`). -/
def phu_file_content_url (base site library point_number file_name : Str) : Str :=
  base ++ ("/sites/").data ++ site
    ++ ("/_api/web/GetFileByServerRelativeUrl(\x27").data
    ++ pyQuote (("/sites/").data ++ site ++ ("/").data ++ library ++ ("/").data
        ++ point_number ++ ("/").data ++ file_name)
    ++ ("\x27)/$value").data

/-!
The claims.
-/

/-- C3: if backing up the original file content fails,
`update_text_file` returns a failure outcome and issues no remote
mutation for that point: no rename request and no content write request,
leaving remote state untouched. -/
theorem c3_backup_failure_aborts_before_mutation
    (point_number file_name new_date_str : Str) (fetched : Option Str)
    (renameOk putOk : Bool) :
    update_text_file point_number file_name new_date_str false fetched renameOk putOk
      = (false, []) := rfl

/-- C4: on input text with zero lines satisfying the dual condition
(containing `CMS` and matching the date pattern), `update_text_file`
returns a failure outcome and issues no remote request at all (in
particular no write of updated content), regardless of line count. -/
theorem c4_zero_qualifying_lines_fails_without_write
    (point_number file_name new_date_str content : Str) (renameOk putOk : Bool)
    (h : ∀ line ∈ splitNL content, dualCond line = false) :
    update_text_file point_number file_name new_date_str true (some content) renameOk putOk
      = (false, []) := by
  have hc : (patchLines (replText new_date_str) (splitNL content)).2 = 0 := by
    rw [patchLines_count]
    exact List.countP_eq_zero.mpr (fun a ha => by simp [h a ha])
  simp [update_text_file, hc]

/-- C4, witness: a concrete two-line text with no `CMS` date line is
rejected without any remote request. -/
theorem c4_witness :
    update_text_file ("7").data ("Point 7.txt").data ("01/02/2024").data true
        (some ("hello\nworld 01/02/2024").data) true true = (false, []) :=
  c4_zero_qualifying_lines_fails_without_write _ _ _ _ _ _ (by decide)

/-- C5: when the update proceeds (backup succeeded, content fetched, at
least one qualifying line), a rename request is issued if and only if the
located file name is not case-insensitively equal to the canonical
`Point {point_number}.txt`; and independently of whether the rename
succeeds (`renameOk` arbitrary, in particular `false`), the content write
targets the new intended canonical name rather than the original name. -/
theorem c5_rename_iff_noncanonical_and_write_targets_canonical
    (point_number file_name new_date_str content : Str) (renameOk putOk : Bool)
    (h : ∃ line ∈ splitNL content, dualCond line = true) :
    (lowerStr file_name ≠ lowerStr (desiredName point_number) →
      (update_text_file point_number file_name new_date_str true (some content)
          renameOk putOk).2
        = [RemoteOp.rename file_name (desiredName point_number),
           RemoteOp.put (desiredName point_number)
             (joinNL (patchLines (replText new_date_str) (splitNL content)).1)])
    ∧ (lowerStr file_name = lowerStr (desiredName point_number) →
      (update_text_file point_number file_name new_date_str true (some content)
          renameOk putOk).2
        = [RemoteOp.put file_name
             (joinNL (patchLines (replText new_date_str) (splitNL content)).1)]) := by
  have hc : (patchLines (replText new_date_str) (splitNL content)).2 ≠ 0 := by
    rw [patchLines_count]
    obtain ⟨l, hl, hd⟩ := h
    have := List.countP_pos_iff.mpr ⟨l, hl, hd⟩
    omega
  constructor
  · intro hne
    simp [update_text_file, hc, hne]
  · intro heq
    simp [update_text_file, hc, heq]

/-- C5, witness: for a non-canonical file name and a failing rename, the
requests issued are the rename followed by a content write addressed to
the canonical name. -/
theorem c5_witness :
    (update_text_file ("7").data ("History.txt").data ("03/04/2025").data true
        (some ("01/02/2023\t\tCMS\tnote").data) false true).2
      = [RemoteOp.rename ("History.txt").data (desiredName ("7").data),
         RemoteOp.put (desiredName ("7").data)
           (joinNL (patchLines (replText ("03/04/2025").data)
              (splitNL ("01/02/2023\t\tCMS\tnote").data)).1)] :=
  (c5_rename_iff_noncanonical_and_write_targets_canonical _ _ _ _ _ _
    ⟨("01/02/2023\t\tCMS\tnote").data, by decide, by decide⟩).1 (by decide)

/-- C9: a transport or service error while fetching a point's existing
content is indistinguishable from the file not existing:
`get_existing_content` returns `none` in both cases, and
`update_point_history` then takes the create-new-file branch, issuing a
create of `Point {point_number}.txt` with the composed template content,
exactly as it does when no text file is present. -/
theorem c9_fetch_error_indistinguishable_from_missing_file
    (monument_permit : Option Str) (current_date : Str) (obs : VRSObservation)
    (observer initials : Str) (monumentType : Option Str) (files : List SPFile)
    (contentFetchOk : Bool) (hfiles : findTxtFile files = none) :
    get_existing_content (Except.error ()) contentFetchOk = none
    ∧ get_existing_content (Except.ok files) contentFetchOk = none
    ∧ update_point_history monument_permit current_date obs observer initials
        monumentType (Except.error ()) contentFetchOk
      = some (FileWrite.create (("Point ").data ++ obs.point_number ++ (".txt").data)
          (createPointHistoryContent monument_permit current_date
            { obs with monument_type := monumentType } observer initials none))
    ∧ update_point_history monument_permit current_date obs observer initials
        monumentType (Except.error ()) contentFetchOk
      = update_point_history monument_permit current_date obs observer initials
          monumentType (Except.ok files) contentFetchOk := by
  refine ⟨rfl, ?_, rfl, ?_⟩
  · simp [get_existing_content, hfiles]
  · simp [update_point_history, get_existing_content, hfiles]

/-- C9, witness: with a folder containing no `.txt` file, the error case
and the missing-file case produce the same create request. -/
theorem c9_witness :
    update_point_history none ("10/12/2025").data
        { document_num := ("d").data, work_order := ("w").data,
          control_used := ("c").data, point_number := ("101").data,
          township_range := ("t").data, sect := ("1").data,
          date_observed := ("01/02/2024").data }
        ("obs").data ("oi").data none (Except.error ()) true
      = update_point_history none ("10/12/2025").data
          { document_num := ("d").data, work_order := ("w").data,
            control_used := ("c").data, point_number := ("101").data,
            township_range := ("t").data, sect := ("1").data,
            date_observed := ("01/02/2024").data }
          ("obs").data ("oi").data none
          (Except.ok [⟨("readme.md").data, ("x").data⟩]) true :=
  (c9_fetch_error_indistinguishable_from_missing_file _ _ _ _ _ _ _ _
    (by decide)).2.2.2

/-- C10: in `process_multiple_points` a `max_points` of `0` is treated
exactly like no limit: the truncation is skipped, the full point list is
processed, and the results coincide with those of a run with no limit
(rather than processing zero points). -/
theorem c10_max_points_zero_means_no_limit
    (points : List PointRec) (processOk : PointRec → Bool) :
    truncatePoints points (some 0) = points
    ∧ process_multiple_points points (some 0) processOk
        = process_multiple_points points none processOk := by
  constructor
  · simp [truncatePoints]
  · simp [process_multiple_points, truncatePoints]

theorem digitChar_isDigit (n : Nat) : (digitChar n).isDigit = true := by
  unfold digitChar
  split <;> decide

theorem hexDigit_isAlphanum (n : Nat) : (hexDigit n).isAlphanum = true := by
  unfold hexDigit
  split <;> decide

theorem not_mem_append {α : Type} {x : α} {a b : List α}
    (ha : x ∉ a) (hb : x ∉ b) : x ∉ a ++ b := by
  intro h
  rcases List.mem_append.mp h with h | h
  exacts [ha h, hb h]

theorem letter_l_not_mem_isoZ (y mo d h mi s : Nat) : 'l' ∉ isoZ y mo d h mi s := by
  have hd : ∀ n, ¬ 'l' = digitChar n := by
    intro n he
    have hdig := digitChar_isDigit n
    rw [← he] at hdig
    exact absurd hdig (by decide)
  intro hmem
  simp only [isoZ, twoDigit, fourDigit, List.mem_append, List.mem_cons,
    List.mem_singleton, List.not_mem_nil, or_false] at hmem
  casesm* _ ∨ _
  all_goals rename_i hx
  all_goals first
    | exact hd _ hx
    | exact absurd hx (by decide)

/-- C8: with `end_date = None`, the `$filter` built by
`get_points_by_date_range` contains the lower-bound clause
`Date_x0020_Added ge datetime'...'` and contains no upper-bound clause:
the substring `le` does not occur anywhere in the filter. -/
theorem c8_no_upper_bound_clause_without_end_date (y mo d h mi s : Nat) :
    containsSub (dateAddedField ++ (" ge datetime\x27").data)
        (dateFilter (isoZ y mo d h mi s) none) = true
    ∧ containsSub (('l' : Char) :: ('e' : Char) :: [])
        (dateFilter (isoZ y mo d h mi s) none) = false := by
  constructor
  · have hshape : dateFilter (isoZ y mo d h mi s) none
        = (dateAddedField ++ (" ge datetime\x27").data)
          ++ (isoZ y mo d h mi s ++ ("\x27").data) := by
      simp [dateFilter, List.append_assoc]
    rw [hshape]
    exact containsSub_of_isPrefixOf (isPrefixOf_self_append _ _)
  · apply containsSub_eq_false_of_head_not_mem
    intro hmem
    simp only [dateFilter, List.mem_append] at hmem
    rcases hmem with ((hx | hx) | hx) | hx
    · exact absurd hx (by decide)
    · exact absurd hx (by decide)
    · exact letter_l_not_mem_isoZ y mo d h mi s hx
    · exact absurd hx (by decide)

theorem space_not_mem_quoteChar (c : Char) : ' ' ∉ quoteChar c := by
  unfold quoteChar
  split
  · rename_i hsafe
    intro hmem
    rw [List.mem_singleton] at hmem
    rw [← hmem] at hsafe
    exact absurd hsafe (by decide)
  · intro hmem
    rcases List.mem_cons.mp hmem with h | hmem
    · exact absurd h (by decide)
    · rcases List.mem_cons.mp hmem with h | hmem
      · have := hexDigit_isAlphanum (c.toNat / 16)
        rw [← h] at this
        exact absurd this (by decide)
      · rw [List.mem_singleton] at hmem
        have := hexDigit_isAlphanum c.toNat
        rw [← hmem] at this
        exact absurd this (by decide)

theorem space_not_mem_pyQuote (s : Str) : ' ' ∉ pyQuote s := by
  induction s with
  | nil => simp [pyQuote]
  | cons c t ih =>
    simp only [pyQuote]
    exact not_mem_append (space_not_mem_quoteChar c) ih

/-- C6, counterexample: for the point number `a b`,
`sharepoint_date_updater.py` builds its folder-listing URL with the raw,
unencoded path (the URL contains a space), and it differs from the URL
that percent-encoding of the path segments would produce; so not every
path segment is percent-encoded in both pipelines. -/
theorem c6_counterexample :
    sdu_folder_files_url ("http://srv").data ("s").data ("lib").data ("a b").data
      ≠ sdu_folder_files_url_spec ("http://srv").data ("s").data ("lib").data ("a b").data
    ∧ ' ' ∈ sdu_folder_files_url ("http://srv").data ("s").data ("lib").data ("a b").data := by
  decide

/-- C6 (amended): only pipeline A (`point_history_updater.py`)
percent-encodes its folder and file paths before embedding them: its
folder-listing and file-content URLs contain no space whenever the base
URL and site name are space-free, for every library and point number; in
pipeline B (`sharepoint_date_updater.py`) the path segments are embedded
raw, so any space in the point number appears verbatim in the
folder-listing and file-content URLs. -/
theorem c6_pipeline_a_encodes_pipeline_b_does_not
    (base site library point_number file_name : Str)
    (hb : ' ' ∉ base) (hs : ' ' ∉ site) :
    (' ' ∉ phu_folder_files_url base site library point_number)
    ∧ (' ' ∉ phu_file_content_url base site library point_number file_name)
    ∧ (' ' ∈ point_number → ' ' ∈ sdu_folder_files_url base site library point_number)
    ∧ (' ' ∈ point_number →
        ' ' ∈ sdu_file_content_url base site library point_number file_name) := by
  refine ⟨?_, ?_, ?_, ?_⟩
  · intro hmem
    simp only [phu_folder_files_url, List.mem_append] at hmem
    rcases hmem with ((((h | h) | h) | h) | h) | h
    · exact hb h
    · exact absurd h (by decide)
    · exact hs h
    · exact absurd h (by decide)
    · exact space_not_mem_pyQuote _ h
    · exact absurd h (by decide)
  · intro hmem
    simp only [phu_file_content_url, List.mem_append] at hmem
    rcases hmem with ((((h | h) | h) | h) | h) | h
    · exact hb h
    · exact absurd h (by decide)
    · exact hs h
    · exact absurd h (by decide)
    · exact space_not_mem_pyQuote _ h
    · exact absurd h (by decide)
  · intro hp
    simp only [sdu_folder_files_url, List.mem_append]
    exact Or.inl (Or.inr hp)
  · intro hp
    simp only [sdu_file_content_url, List.mem_append]
    exact Or.inl (Or.inl (Or.inl (Or.inr hp)))

/-- C6, witness: concrete space-free base URL and site name; pipeline A's
folder URL for the point `a b` is space-free while pipeline B's contains
the space verbatim. -/
theorem c6_witness :
    (' ' ∉ phu_folder_files_url ("http://srv").data ("s").data ("lib").data ("a b").data)
    ∧ ' ' ∈ sdu_folder_files_url ("http://srv").data ("s").data ("lib").data ("a b").data :=
  ⟨(c6_pipeline_a_encodes_pipeline_b_does_not ("http://srv").data ("s").data
      ("lib").data ("a b").data ("t.txt").data (by decide) (by decide)).1,
   (c6_pipeline_a_encodes_pipeline_b_does_not ("http://srv").data ("s").data
      ("lib").data ("a b").data ("t.txt").data (by decide) (by decide)).2.2.1 (by decide)⟩

/-- C1, counterexample: the line `CMS 01/02/2024` contains the literal
`CMS` and matches the date pattern, yet the patcher leaves it byte-for-byte
unchanged (the regex requires the date to precede the marker with
whitespace in between), so its date substring does not equal the new date
`03/04/2025` and no tab separator is inserted; the line is nevertheless
counted as updated. -/
theorem c1_counterexample :
    dualCond (("CMS 01/02/2024").data) = true
    ∧ (patchLines (replText ("03/04/2025").data) [("CMS 01/02/2024").data]).1
        = [("CMS 01/02/2024").data]
    ∧ (patchLines (replText ("03/04/2025").data) [("CMS 01/02/2024").data]).2 = 1
    ∧ containsSub ("03/04/2025").data (("CMS 01/02/2024").data) = false
    ∧ containsSub ("01/02/2024").data (("CMS 01/02/2024").data) = true := by
  have h1 : dualCond (("CMS 01/02/2024").data) = true := by decide
  have h2 : hasDateCMS (("CMS 01/02/2024").data) = false := by decide
  refine ⟨h1, ?_, ?_, by decide, by decide⟩
  · simp [patchLines, h1, subDateCMS_of_not_hasDateCMS _ _ h2]
  · simp [patchLines, h1]

/-- C1 (amended): the line patcher of `update_text_file` preserves the
number of lines; every line not satisfying the dual condition (contains
`CMS` and matches `\d{2}/\d{2}/\d{4}`) passes through byte-for-byte
identical; every line satisfying the dual condition is rewritten by
replacing each non-overlapping occurrence of a date followed by
whitespace and `CMS` with the new date, two tabs and `CMS` (so when such
an occurrence exists the output line contains the new date, tab-tab,
`CMS`), while a dual-condition line with no such occurrence also passes
through unchanged. -/
theorem c1_line_patcher_amended (new_date_str content : Str) (i : Nat) :
    (patchLines (replText new_date_str) (splitNL content)).1.length
      = (splitNL content).length
    ∧ (dualCond ((splitNL content).getD i []) = false →
        (patchLines (replText new_date_str) (splitNL content)).1.getD i []
          = (splitNL content).getD i [])
    ∧ (dualCond ((splitNL content).getD i []) = true →
        (patchLines (replText new_date_str) (splitNL content)).1.getD i []
          = subDateCMS (replText new_date_str) ((splitNL content).getD i [])
        ∧ (hasDateCMS ((splitNL content).getD i []) = true →
            containsSub (replText new_date_str)
              ((patchLines (replText new_date_str) (splitNL content)).1.getD i []) = true)
        ∧ (hasDateCMS ((splitNL content).getD i []) = false →
            (patchLines (replText new_date_str) (splitNL content)).1.getD i []
              = (splitNL content).getD i [])) := by
  have hg := patchLines_getD (replText new_date_str) (splitNL content) i
  refine ⟨patchLines_length _ _, ?_, ?_⟩
  · intro hfalse
    rw [hg, if_neg (by simp only [hfalse]; decide)]
  · intro htrue
    have hg' : (patchLines (replText new_date_str) (splitNL content)).1.getD i []
        = subDateCMS (replText new_date_str) ((splitNL content).getD i []) := by
      rw [hg, if_pos htrue]
    refine ⟨hg', ?_, ?_⟩
    · intro hm
      rw [hg']
      exact subDateCMS_containsSub_of_hasDateCMS _ _ hm
    · intro hm
      rw [hg']
      exact subDateCMS_of_not_hasDateCMS _ _ hm

/-- C1, witness: on the two-line text
`06/01/2023\t\tCMS\tnote` / `plain line` with new date `03/04/2025`, the
patched first line contains `03/04/2025\t\tCMS` and the second line
passes through unchanged. -/
theorem c1_witness :
    containsSub (replText ("03/04/2025").data)
        ((patchLines (replText ("03/04/2025").data)
          (splitNL ("06/01/2023\t\tCMS\tnote\nplain line").data)).1.getD 0 []) = true
    ∧ (patchLines (replText ("03/04/2025").data)
          (splitNL ("06/01/2023\t\tCMS\tnote\nplain line").data)).1.getD 1 []
        = (splitNL ("06/01/2023\t\tCMS\tnote\nplain line").data).getD 1 [] :=
  ⟨((c1_line_patcher_amended ("03/04/2025").data
        ("06/01/2023\t\tCMS\tnote\nplain line").data 0).2.2 (by decide)).2.1 (by decide),
   (c1_line_patcher_amended ("03/04/2025").data
        ("06/01/2023\t\tCMS\tnote\nplain line").data 1).2.1 (by decide)⟩

/-- The concrete CSV row of end-to-end scenario A, with the monument-type
lookup result `Brass Cap` filled in. -/
def obsScenarioA : VRSObservation :=
  { document_num := ("DOC-1").data, work_order := ("WO-5").data,
    control_used := ("VRS-Net").data, point_number := ("101").data,
    township_range := ("T1N R1E").data, sect := ("12").data,
    date_observed := ("01/02/2024").data, monument_type := some ("Brass Cap").data }

/-- C7: for scenario A's CSV row with monument type `Brass Cap` and no
existing file content, the composed content contains the substring
`This monument (Brass Cap) was observed with VRS (DOC-1) using VRS-Net
and Geoid18`, and one of its lines contains `as part of WO WO-5` — for
every monument permit, current date, observer and initials. -/
theorem c7_scenario_a (monument_permit : Option Str)
    (current_date observer initials : Str) :
    containsSub
        ("This monument (Brass Cap) was observed with VRS (DOC-1) using VRS-Net and Geoid18").data
        (createPointHistoryContent monument_permit current_date obsScenarioA
          observer initials none) = true
    ∧ ∃ line ∈ splitNL (createPointHistoryContent monument_permit current_date
          obsScenarioA observer initials none),
        containsSub ("as part of WO WO-5").data line = true := by
  have hgrp1 : ∀ R : Str,
      ("\tThis monument").data ++ (monumentTypeText obsScenarioA.monument_type
        ++ ((" was observed with VRS (").data ++ (obsScenarioA.document_num
        ++ ((") using ").data ++ (obsScenarioA.control_used
        ++ ((" and Geoid18").data ++ R))))))
      = ('\t' :: ("This monument (Brass Cap) was observed with VRS (DOC-1) using VRS-Net and Geoid18").data)
        ++ R := by
    intro R
    simp only [← List.append_assoc]
    exact congrArg (fun x => x ++ R) (by decide)
  have hgrp2 : ∀ R : Str,
      ("\n\t\t\tas part of WO ").data ++ (obsScenarioA.work_order
        ++ ((". The purpose of this work order was to facilitate ").data ++ R))
      = ('\n' :: ("\t\t\tas part of WO WO-5. The purpose of this work order was to facilitate ").data)
        ++ R := by
    intro R
    simp only [← List.append_assoc]
    exact congrArg (fun x => x ++ R) (by decide)
  constructor
  · simp only [createPointHistoryContent, newEntryText, List.append_assoc]
    apply containsSub_append_right
    apply containsSub_append_right
    apply containsSub_append_right
    apply containsSub_append_right
    apply containsSub_append_right
    rw [hgrp1]
    exact containsSub_append_left _ (by decide)
  · apply exists_line_of_containsSub (by decide)
    simp only [createPointHistoryContent, newEntryText, List.append_assoc]
    apply containsSub_append_right
    apply containsSub_append_right
    apply containsSub_append_right
    apply containsSub_append_right
    apply containsSub_append_right
    apply containsSub_append_right
    apply containsSub_append_right
    apply containsSub_append_right
    apply containsSub_append_right
    apply containsSub_append_right
    apply containsSub_append_right
    apply containsSub_append_right
    rw [hgrp2]
    exact containsSub_append_left _ (by decide)

theorem isPrefixOf_second_ne {a b c : Char} {p t : Str} (h : ¬ b = c) :
    (a :: b :: p).isPrefixOf (a :: c :: t) = false := by
  have hb : (b == c) = false := by simp [h]
  simp [List.isPrefixOf, hb]

/-- Concatenation of a list of string blocks (used to name the block
decomposition of the composed content). -/
def catStr (l : List Str) : Str := l.foldr (fun x y => x ++ y) []

theorem not_mem_catStr {c : Char} {l : List Str} (h : ∀ a ∈ l, c ∉ a) :
    c ∉ catStr l := by
  induction l with
  | nil => simp [catStr]
  | cons a t ih =>
    simp only [catStr, List.foldr_cons]
    exact not_mem_append (h a (List.mem_cons_self a t))
      (ih (fun x hx => h x (List.mem_cons_of_mem a hx)))

/-- Peeling a list of leading blocks, none of which contains the
pattern's first character. -/
theorem countOcc_catStr_peel {c : Char} {p : Str} (pre rest : List Str)
    (h : ∀ a ∈ pre, c ∉ a) :
    countOcc (c :: p) (catStr (pre ++ rest)) = countOcc (c :: p) (catStr rest) := by
  induction pre with
  | nil => rfl
  | cons a t ih =>
    simp only [List.cons_append, catStr, List.foldr_cons]
    exact (countOcc_append_of_head_not_mem _ (h a (List.mem_cons_self a t))).trans
      (ih (fun x hx => h x (List.mem_cons_of_mem a hx)))

/-- The header marker occurs exactly once in `ACTION/REMARKS ++ Y` when
`Y` contains no `A` (the second `A`, inside `REMARKS`, is followed by
`RKS`, which does not start the marker again). -/
theorem hdrBlock_once (Y : Str) (hY : 'A' ∉ Y) :
    countOcc (("ACTION/REMARKS").data) ((("ACTION/REMARKS").data) ++ Y) = 1 := by
  have hpre1 : (("ACTION/REMARKS").data).isPrefixOf ((("ACTION/REMARKS").data) ++ Y)
      = true := isPrefixOf_self_append _ _
  have hpre2 : (("ACTION/REMARKS").data).isPrefixOf ('A' :: 'R' :: 'K' :: 'S' :: Y)
      = false := isPrefixOf_second_ne (by decide)
  have hstep1 : countOcc (("ACTION/REMARKS").data) ((("ACTION/REMARKS").data) ++ Y)
      = (if (("ACTION/REMARKS").data).isPrefixOf ((("ACTION/REMARKS").data) ++ Y)
          then 1 else 0)
        + countOcc (("ACTION/REMARKS").data)
            ((("CTION/REM").data) ++ ('A' :: 'R' :: 'K' :: 'S' :: Y)) := rfl
  have hskip : countOcc (("ACTION/REMARKS").data)
        ((("CTION/REM").data) ++ ('A' :: 'R' :: 'K' :: 'S' :: Y))
      = countOcc (("ACTION/REMARKS").data) ('A' :: 'R' :: 'K' :: 'S' :: Y) :=
    countOcc_append_of_head_not_mem _ (by decide)
  have hstep2 : countOcc (("ACTION/REMARKS").data) ('A' :: 'R' :: 'K' :: 'S' :: Y)
      = (if (("ACTION/REMARKS").data).isPrefixOf ('A' :: 'R' :: 'K' :: 'S' :: Y)
          then 1 else 0)
        + countOcc (("ACTION/REMARKS").data) ('R' :: 'K' :: 'S' :: Y) := rfl
  have hmid : countOcc (("ACTION/REMARKS").data) ('R' :: 'K' :: 'S' :: Y)
      = countOcc (("ACTION/REMARKS").data) Y :=
    countOcc_append_of_head_not_mem (a := ("RKS").data) Y (by decide)
  have hz : countOcc (("ACTION/REMARKS").data) Y = 0 :=
    countOcc_eq_zero_of_head_not_mem hY
  rw [hstep1, hpre1, hskip, hstep2, hpre2, hmid, hz]
  decide

theorem not_mem_newEntry_A (monument_permit : Option Str) (current_date : Str)
    (obs : VRSObservation) (observer initials : Str)
    (h1 : 'A' ∉ current_date) (h2 : 'A' ∉ initials)
    (h3 : 'A' ∉ monumentTypeText obs.monument_type) (h4 : 'A' ∉ obs.document_num)
    (h5 : 'A' ∉ obs.control_used) (h6 : 'A' ∉ obs.work_order)
    (h7 : 'A' ∉ permitText monument_permit) (h8 : 'A' ∉ obs.sect)
    (h9 : 'A' ∉ obs.township_range) (h10 : 'A' ∉ observer)
    (h11 : 'A' ∉ obs.date_observed) :
    'A' ∉ newEntryText monument_permit current_date obs observer initials := by
  simp only [newEntryText, locationText]
  repeat' apply not_mem_append
  all_goals first | assumption | decide

/-- C2, counterexample: with observer name `ACTION/REMARKS` and empty
existing content, the composed output contains the `ACTION/REMARKS`
marker twice, so "exactly one header block for every observation,
observer name and initials" fails as stated. -/
theorem c2_counterexample :
    countOcc (("ACTION/REMARKS").data)
      (createPointHistoryContent none ("d").data
        { document_num := ("n").data, work_order := ("w").data,
          control_used := ("c").data, point_number := ("1").data,
          township_range := ("t").data, sect := ("s").data,
          date_observed := ("o").data }
        ("ACTION/REMARKS").data ("i").data none) = 2 := by
  set_option maxRecDepth 16384 in decide

set_option maxHeartbeats 3200000 in
set_option maxRecDepth 16384 in
/-- C2 (amended): provided none of the interpolated strings (current
date, initials, monument-type text, document number, control method,
work order, permit text, section, township/range, observer, observed
date, point number) contains the uppercase characters `A` or `V` — in
particular none contains the header text: with empty or absent existing
content the composed output contains exactly one `ACTION/REMARKS`
header marker and exactly one entry marker `VRS (`; with non-empty
existing content the output equals `rstrip(existing)` concatenated with
the new entry, so the header block is never re-emitted. -/
theorem c2_content_composer_amended (monument_permit : Option Str) (current_date : Str)
    (obs : VRSObservation) (observer initials : Str) (e : Str)
    (h : ∀ v ∈ [current_date, initials, monumentTypeText obs.monument_type,
        obs.document_num, obs.control_used, obs.work_order, permitText monument_permit,
        obs.sect, obs.township_range, observer, obs.date_observed, obs.point_number],
        'A' ∉ v ∧ 'V' ∉ v) :
    countOcc (("ACTION/REMARKS").data)
        (createPointHistoryContent monument_permit current_date obs observer initials none)
      = 1
    ∧ countOcc (("VRS (").data)
        (createPointHistoryContent monument_permit current_date obs observer initials none)
      = 1
    ∧ (e ≠ [] →
        createPointHistoryContent monument_permit current_date obs observer initials (some e)
          = pyRstrip e ++ newEntryText monument_permit current_date obs observer initials) := by
  have hcd := h current_date (by simp)
  have hini := h initials (by simp)
  have hmtt := h (monumentTypeText obs.monument_type) (by simp)
  have hdoc := h obs.document_num (by simp)
  have hctrl := h obs.control_used (by simp)
  have hwo := h obs.work_order (by simp)
  have hpt := h (permitText monument_permit) (by simp)
  have hsec := h obs.sect (by simp)
  have htr := h obs.township_range (by simp)
  have hob := h observer (by simp)
  have hdo := h obs.date_observed (by simp)
  have hpn := h obs.point_number (by simp)
  have hA_new : 'A' ∉ newEntryText monument_permit current_date obs observer initials :=
    not_mem_newEntry_A monument_permit current_date obs observer initials
      hcd.1 hini.1 hmtt.1 hdoc.1 hctrl.1 hwo.1 hpt.1 hsec.1 htr.1 hob.1 hdo.1
  have h0 : createPointHistoryContent monument_permit current_date obs observer initials none
      = templateHeader obs.point_number
        ++ newEntryText monument_permit current_date obs observer initials := rfl
  have hV_tpl : 'V' ∉ templateHeader obs.point_number := by
    simp only [templateHeader]
    repeat' apply not_mem_append
    all_goals first | exact hpn.2 | decide
  have hV_loc : 'V' ∉ locationText obs := by
    simp only [locationText]
    repeat' apply not_mem_append
    all_goals first | exact hsec.2 | exact htr.2 | decide
  refine ⟨?_, ?_, ?_⟩
  · rw [h0]
    have ea : templateHeader obs.point_number
          ++ newEntryText monument_permit current_date obs observer initials
        = catStr [("\n    POINT HISTORY FILE: for point ").data, obs.point_number,
            ("\n\n(mm/dd/yyyy) \t(initials)\t\t").data, ("ACTION/REMARKS").data,
            ("\n").data, List.replicate 89 '-', ("\n").data,
            newEntryText monument_permit current_date obs observer initials] := by
      simp only [templateHeader, catStr, List.foldr_cons, List.foldr_nil,
        List.append_assoc, List.append_nil, List.cons_append, List.nil_append]
    have hpreA : ∀ a ∈ [("\n    POINT HISTORY FILE: for point ").data,
        obs.point_number, ("\n\n(mm/dd/yyyy) \t(initials)\t\t").data], 'A' ∉ a := by
      intro a ha
      simp only [List.mem_cons, List.not_mem_nil, or_false] at ha
      rcases ha with rfl | rfl | rfl
      · decide
      · exact hpn.1
      · decide
    have hY : 'A' ∉ catStr [("\n").data, List.replicate 89 '-', ("\n").data,
        newEntryText monument_permit current_date obs observer initials] := by
      apply not_mem_catStr
      intro a ha
      simp only [List.mem_cons, List.not_mem_nil, or_false] at ha
      rcases ha with rfl | rfl | rfl | rfl
      · decide
      · decide
      · decide
      · exact hA_new
    calc countOcc (("ACTION/REMARKS").data)
          (templateHeader obs.point_number
            ++ newEntryText monument_permit current_date obs observer initials)
        = countOcc (("ACTION/REMARKS").data)
            (catStr [("\n    POINT HISTORY FILE: for point ").data, obs.point_number,
              ("\n\n(mm/dd/yyyy) \t(initials)\t\t").data, ("ACTION/REMARKS").data,
              ("\n").data, List.replicate 89 '-', ("\n").data,
              newEntryText monument_permit current_date obs observer initials]) :=
          congrArg _ ea
      _ = countOcc (("ACTION/REMARKS").data)
            (catStr [("ACTION/REMARKS").data, ("\n").data, List.replicate 89 '-',
              ("\n").data,
              newEntryText monument_permit current_date obs observer initials]) :=
          countOcc_catStr_peel
            [("\n    POINT HISTORY FILE: for point ").data, obs.point_number,
             ("\n\n(mm/dd/yyyy) \t(initials)\t\t").data] _ hpreA
      _ = 1 := hdrBlock_once _ hY
  · rw [h0]
    have eb : templateHeader obs.point_number
          ++ newEntryText monument_permit current_date obs observer initials
        = catStr [templateHeader obs.point_number, ("\n\n").data, current_date,
            ("\t").data, initials, ("\tThis monument").data,
            monumentTypeText obs.monument_type, (" was observed with ").data,
            ("VRS (").data, obs.document_num, (") using ").data, obs.control_used,
            (" and Geoid18").data, ("\n\t\t\tas part of WO ").data, obs.work_order,
            (". The purpose of this work order was to facilitate ").data,
            permitText monument_permit, ("\n\t\t\t").data, locationText obs,
            (". Monument observed by ").data, observer, (" on ").data,
            obs.date_observed, (".\n\n").data] := by
      simp only [newEntryText, catStr, List.foldr_cons, List.foldr_nil,
        List.append_assoc, List.append_nil, List.cons_append, List.nil_append]
    have hpreV : ∀ a ∈ [templateHeader obs.point_number, ("\n\n").data, current_date,
        ("\t").data, initials, ("\tThis monument").data,
        monumentTypeText obs.monument_type, (" was observed with ").data], 'V' ∉ a := by
      intro a ha
      simp only [List.mem_cons, List.not_mem_nil, or_false] at ha
      rcases ha with rfl | rfl | rfl | rfl | rfl | rfl | rfl | rfl
      · exact hV_tpl
      · decide
      · exact hcd.2
      · decide
      · exact hini.2
      · decide
      · exact hmtt.2
      · decide
    have hVrest : 'V' ∉ catStr [obs.document_num, (") using ").data, obs.control_used,
        (" and Geoid18").data, ("\n\t\t\tas part of WO ").data, obs.work_order,
        (". The purpose of this work order was to facilitate ").data,
        permitText monument_permit, ("\n\t\t\t").data, locationText obs,
        (". Monument observed by ").data, observer, (" on ").data,
        obs.date_observed, (".\n\n").data] := by
      apply not_mem_catStr
      intro a ha
      simp only [List.mem_cons, List.not_mem_nil, or_false] at ha
      rcases ha with
        rfl | rfl | rfl | rfl | rfl | rfl | rfl | rfl | rfl | rfl | rfl | rfl | rfl | rfl | rfl
      · exact hdoc.2
      · decide
      · exact hctrl.2
      · decide
      · decide
      · exact hwo.2
      · decide
      · exact hpt.2
      · decide
      · exact hV_loc
      · decide
      · exact hob.2
      · decide
      · exact hdo.2
      · decide
    calc countOcc (("VRS (").data)
          (templateHeader obs.point_number
            ++ newEntryText monument_permit current_date obs observer initials)
        = countOcc (("VRS (").data)
            (catStr [templateHeader obs.point_number, ("\n\n").data, current_date,
              ("\t").data, initials, ("\tThis monument").data,
              monumentTypeText obs.monument_type, (" was observed with ").data,
              ("VRS (").data, obs.document_num, (") using ").data, obs.control_used,
              (" and Geoid18").data, ("\n\t\t\tas part of WO ").data, obs.work_order,
              (". The purpose of this work order was to facilitate ").data,
              permitText monument_permit, ("\n\t\t\t").data, locationText obs,
              (". Monument observed by ").data, observer, (" on ").data,
              obs.date_observed, (".\n\n").data]) := congrArg _ eb
      _ = countOcc (("VRS (").data)
            (catStr [("VRS (").data, obs.document_num, (") using ").data,
              obs.control_used, (" and Geoid18").data,
              ("\n\t\t\tas part of WO ").data, obs.work_order,
              (". The purpose of this work order was to facilitate ").data,
              permitText monument_permit, ("\n\t\t\t").data, locationText obs,
              (". Monument observed by ").data, observer, (" on ").data,
              obs.date_observed, (".\n\n").data]) :=
          countOcc_catStr_peel
            [templateHeader obs.point_number, ("\n\n").data, current_date,
             ("\t").data, initials, ("\tThis monument").data,
             monumentTypeText obs.monument_type,
             (" was observed with ").data] _ hpreV
      _ = 1 := countOcc_self_append (by decide) hVrest
  · intro he
    simp only [createPointHistoryContent]
    rw [if_pos he]

/-- A concrete observation, free of the characters `A` and `V`, used to
instantiate the content-composer theorem. -/
def obsWitnessB : VRSObservation :=
  { document_num := ("doc-1").data, work_order := ("wo-5").data,
    control_used := ("net-x").data, point_number := ("101").data,
    township_range := ("t1n r1e").data, sect := ("12").data,
    date_observed := ("01/02/2024").data }

/-- C2, witness: at a concrete observation the empty-content output has
exactly one header marker and one entry marker, and the non-empty-content
output is the stripped existing content plus the new entry. -/
theorem c2_witness :
    countOcc (("ACTION/REMARKS").data)
        (createPointHistoryContent none ("10/12/2025").data obsWitnessB
          ("casey").data ("cs").data none) = 1
    ∧ countOcc (("VRS (").data)
        (createPointHistoryContent none ("10/12/2025").data obsWitnessB
          ("casey").data ("cs").data none) = 1
    ∧ createPointHistoryContent none ("10/12/2025").data obsWitnessB
          ("casey").data ("cs").data (some ("old content\n\n").data)
        = pyRstrip ("old content\n\n").data
          ++ newEntryText none ("10/12/2025").data obsWitnessB ("casey").data ("cs").data :=
  have happ := c2_content_composer_amended none ("10/12/2025").data obsWitnessB
    ("casey").data ("cs").data ("old content\n\n").data (by decide)
  ⟨happ.1, happ.2.1, happ.2.2 (by decide)⟩

end SLCO
